import Mathlib

/-!
Verification of the filename-pattern tokenizer and matcher of the
tab-server repository (src/src/tab.go).

Strings of the Go source are modelled as their sequences of characters
(`List Char`); the byte-indexing of the source (`str[0]`, `str[len-1]`,
`filename[1:]`) becomes head/last/drop on the list.  The Go functions
`tokenizePattern`, `isVariable` and `parseFilename` are embedded as
computable Lean functions of the same names.  A Go runtime panic (the
out-of-range index `tokens[index+1][0]` taken on an empty token) is
modelled by an `Option` result: `none` is the panic, `some` the normal
return of the four named results `(title, artist, tags, ok)`.
-/

namespace TabServer

/-- The zero byte: the value a Go `var stop byte` holds before any
assignment, used by `parseFilename` as the "no stop character" sentinel. -/
def nulChar : Char := Char.ofNat 0

/-- Embeds the loop of `tokenizePattern`: one step per character of the
pattern, threading the `tokens` list and the accumulation `buffer`.
On `[` the buffer is flushed and the new buffer is seeded with `[`;
on `]` the bracket is appended and the buffer flushed; any other
character is appended to the buffer.  At the end of the input the
buffer is flushed if it is non-empty. -/
def tokenizeLoop : List Char → List (List Char) → List Char → List (List Char)
  | [], tokens, buffer => if buffer.length > 0 then tokens ++ [buffer] else tokens
  | c :: cs, tokens, buffer =>
    if c = '[' then tokenizeLoop cs (tokens ++ [buffer]) ['[']
    else if c = ']' then tokenizeLoop cs (tokens ++ [buffer ++ [c]]) []
    else tokenizeLoop cs tokens (buffer ++ [c])

/-- Embeds Go `tokenizePattern`: starts the loop with no tokens and an
empty buffer. -/
def tokenizePattern (pattern : List Char) : List (List Char) :=
  tokenizeLoop pattern [] []

/-- Embeds Go `isVariable`: a string is a variable iff its length
exceeds one, it begins with `[` and it ends with `]`. -/
def isVariable (str : List Char) : Bool :=
  decide (str.length > 1) && decide (str.head? = some '[') && decide (str.getLast? = some ']')

/-- Embeds Go `strings.HasPrefix s pre`: `s` begins with the characters
of `pre`. -/
def hasPrefix : List Char → List Char → Bool
  | _, [] => true
  | [], _ :: _ => false
  | c :: cs, p :: ps => c = p && hasPrefix cs ps

/-- Embeds the stop-byte selection of `parseFilename` for a variable
token, given the tokens that follow it: the zero value of `var stop
byte` when no non-variable token follows, otherwise the first byte of
the following token.  Taking the first byte of an empty following token
is the out-of-range panic of the source, modelled as `none`. -/
def stopByte : List (List Char) → Option Char
  | [] => some nulChar
  | next :: _ =>
    if isVariable next then some nulChar
    else
      match next with
      | [] => none
      | c :: _ => some c

/-- Embeds the inner `for` loop of `parseFilename` for a variable
token: characters move from the front of the filename into the capture
buffer while the filename is non-empty and its first character differs
from `stop`.  Returns the capture buffer and the remaining filename. -/
def consumeVar (stop : Char) : List Char → List Char × List Char
  | [] => ([], [])
  | c :: cs =>
    if c = stop then ([], c :: cs)
    else
      let (buffer, rest) := consumeVar stop cs
      (c :: buffer, rest)

/-- Embeds the `switch token` of `parseFilename`: `[title]` and
`[artist]` overwrite their field with the capture buffer, `[tag]`
appends it to the tags, and any other token leaves all fields
unchanged (the capture is discarded). -/
def assignVar (token buffer title artist : List Char) (tags : List (List Char)) :
    List Char × List Char × List (List Char) :=
  if token = "[title]".toList then (buffer, artist, tags)
  else if token = "[artist]".toList then (title, buffer, tags)
  else if token = "[tag]".toList then (title, artist, tags ++ [buffer])
  else (title, artist, tags)

/-- Embeds the `for index, token := range tokens` loop of
`parseFilename`, threading the remaining filename and the three result
fields.  A variable token determines its stop byte from the following
tokens (`none` propagates the panic), captures with `consumeVar` and
dispatches with `assignVar`; a literal token must begin the remaining
filename and is stripped from it, otherwise the loop returns at once
with `ok = false` and the fields as they currently stand. -/
def parseLoop :
    List (List Char) → List Char → List Char → List Char → List (List Char) →
    Option (List Char × List Char × List (List Char) × Bool)
  | [], _, title, artist, tags => some (title, artist, tags, true)
  | token :: rest, filename, title, artist, tags =>
    if isVariable token then
      match stopByte rest with
      | none => none
      | some stop =>
        match consumeVar stop filename with
        | (buffer, filename') =>
          match assignVar token buffer title artist tags with
          | (title', artist', tags') => parseLoop rest filename' title' artist' tags'
    else
      if hasPrefix filename token then
        parseLoop rest (filename.drop token.length) title artist tags
      else
        some (title, artist, tags, false)

/-- Embeds Go `parseFilename`: runs the token loop from the default
field values `title = "Untitled"`, `artist = "Unnamed"`, `tags = []`
(and `ok = true`, the value returned when no literal mismatch occurs). -/
def parseFilename (filename : List Char) (tokens : List (List Char)) :
    Option (List Char × List Char × List (List Char) × Bool) :=
  parseLoop tokens filename "Untitled".toList "Unnamed".toList []

/-- A pattern has balanced, non-nested brackets: reading left to right,
`[` may occur only outside a bracket pair, `]` only inside one, and the
pattern ends outside.  Tracks the single inside/outside state. -/
def bnnAux : Bool → List Char → Bool
  | inside, [] => !inside
  | inside, c :: cs =>
    if c = '[' then (if inside then false else bnnAux true cs)
    else if c = ']' then (if inside then bnnAux false cs else false)
    else bnnAux inside cs

/-- A pattern string with balanced and non-nested brackets. -/
def balancedNonNested (pattern : List Char) : Bool :=
  bnnAux false pattern

/-- Big-step relation of one run of the token loop of `parseFilename`,
one rule per branch of the source loop: `done` for running off the end
of the token list, `litOk` and `litFail` for a literal token that does
or does not begin the remaining filename, and `var` for a variable
token with its stop byte, capture and field assignment.  `Matches
tokens filename title artist tags r` holds when a run of the loop from
that state can return `r`. -/
inductive Matches :
    List (List Char) → List Char → List Char → List Char → List (List Char) →
    List Char × List Char × List (List Char) × Bool → Prop
  | done :
      Matches [] filename title artist tags (title, artist, tags, true)
  | litOk :
      isVariable token = false → hasPrefix filename token = true →
      Matches rest (filename.drop token.length) title artist tags r →
      Matches (token :: rest) filename title artist tags r
  | litFail :
      isVariable token = false → hasPrefix filename token = false →
      Matches (token :: rest) filename title artist tags (title, artist, tags, false)
  | var :
      isVariable token = true → stopByte rest = some stop →
      consumeVar stop filename = (buffer, filename₂) →
      assignVar token buffer title artist tags = (title₂, artist₂, tags₂) →
      Matches rest filename₂ title₂ artist₂ tags₂ r →
      Matches (token :: rest) filename title artist tags r

/-- Concatenating the tokens produced by the tokenizer loop, in order,
restores the already-flushed tokens, the pending buffer and the input
still to be read. -/
theorem tokenizeLoop_join (cs : List Char) :
    ∀ tokens buffer, (tokenizeLoop cs tokens buffer).flatten = tokens.flatten ++ buffer ++ cs := by
  induction cs with
  | nil =>
    intro tokens buffer
    by_cases h : buffer.length > 0 <;> simp [tokenizeLoop, h]
    · simp [List.length_eq_zero.mp (Nat.eq_zero_of_not_pos h)]
  | cons c cs ih =>
    intro tokens buffer
    by_cases h1 : c = '['
    · simp [tokenizeLoop, h1, ih]
    · by_cases h2 : c = ']' <;> simp [tokenizeLoop, h1, h2, ih]

/-- A variable capture whose stop character does not occur in the
remaining filename consumes the whole remaining filename. -/
theorem consumeVar_all (stop : Char) (fn : List Char) (h : stop ∉ fn) :
    consumeVar stop fn = (fn, []) := by
  induction fn with
  | nil => rfl
  | cons c cs ih =>
    have hc : ¬ (c = stop) := fun hcs => h (hcs ▸ List.mem_cons_self c cs)
    have hcs : stop ∉ cs := fun hm => h (List.mem_cons_of_mem c hm)
    simp [consumeVar, hc, ih hcs]

/-- Every normal (non-panicking) return of the token loop is a run of
the big-step relation `Matches`. -/
theorem parseLoop_sound :
    ∀ (tokens : List (List Char)) (filename title artist : List Char)
      (tags : List (List Char)) r,
      parseLoop tokens filename title artist tags = some r →
      Matches tokens filename title artist tags r := by
  intro tokens
  induction tokens with
  | nil =>
    intro fn t a g r h
    simp [parseLoop] at h
    simp [← h]
    exact Matches.done
  | cons token rest ih =>
    intro fn t a g r h
    by_cases hv : isVariable token = true
    · rw [parseLoop, if_pos hv] at h
      cases hs : stopByte rest with
      | none => simp [hs] at h
      | some stop =>
        rcases hc : consumeVar stop fn with ⟨buffer, fn₂⟩
        rcases ha : assignVar token buffer t a g with ⟨t₂, a₂, g₂⟩
        simp only [hs, hc, ha] at h
        exact Matches.var hv hs hc ha (ih fn₂ t₂ a₂ g₂ r h)
    · have hv' : isVariable token = false := Bool.eq_false_iff.mpr hv
      by_cases hp : hasPrefix fn token = true
      · rw [parseLoop, if_neg hv, if_pos hp] at h
        exact Matches.litOk hv' hp (ih _ t a g r h)
      · have hp' : hasPrefix fn token = false := Bool.eq_false_iff.mpr hp
        rw [parseLoop, if_neg hv, if_neg hp] at h
        cases h
        exact Matches.litFail hv' hp'

/-- Two runs of the token loop from the same token list, filename and
field state return the same result. -/
theorem Matches_det
    (tokens : List (List Char)) (filename title artist : List Char)
    (tags : List (List Char)) (r₁ r₂ : List Char × List Char × List (List Char) × Bool)
    (h₁ : Matches tokens filename title artist tags r₁)
    (h₂ : Matches tokens filename title artist tags r₂) : r₁ = r₂ := by
  induction h₁ generalizing r₂ with
  | done =>
    cases h₂ with
    | done => rfl
  | litOk hv hp hm ih =>
    cases h₂ with
    | litOk hv₂ hp₂ hm₂ => exact ih _ hm₂
    | litFail hv₂ hp₂ => rw [hp] at hp₂; cases hp₂
    | var hv₂ _ _ _ _ => rw [hv] at hv₂; cases hv₂
  | litFail hv hp =>
    cases h₂ with
    | litOk hv₂ hp₂ hm₂ => rw [hp] at hp₂; cases hp₂
    | litFail hv₂ hp₂ => rfl
    | var hv₂ _ _ _ _ => rw [hv] at hv₂; cases hv₂
  | var hv hs hc ha hm ih =>
    cases h₂ with
    | litOk hv₂ _ _ => rw [hv] at hv₂; cases hv₂
    | litFail hv₂ _ => rw [hv] at hv₂; cases hv₂
    | var hv₂ hs₂ hc₂ ha₂ hm₂ =>
      have hstop := Option.some.inj (hs.symm.trans hs₂)
      subst hstop
      have hcap := hc.symm.trans hc₂
      injection hcap with hb hf
      subst hb; subst hf
      have hassign := ha.symm.trans ha₂
      injection hassign with ht hrest
      injection hrest with ha' hg
      subst ht; subst ha'; subst hg
      exact ih _ hm₂

/-- Claim C1: matching the filename `Artist - Song` against the
tokenized pattern `[artist] - [title]` yields title `Song`, artist
`Artist`, no tags, and `ok = true`. -/
theorem claim1_artist_dash_title :
    parseFilename "Artist - Song".toList (tokenizePattern "[artist] - [title]".toList) =
      some ("Song".toList, "Artist".toList, [], true) := by
  decide

/-- Claim C2, behaviour at the failing input: tokenizing the pattern
`[artist][title]` yields an empty literal token between the two
variable tokens, and matching the filename `ab` against those tokens
panics (takes the first byte of that empty token), so the call does not
return `artist = "ab"`, `title = ""`, `ok = true` as claimed. -/
theorem claim2_adjacent_variables_panic :
    tokenizePattern "[artist][title]".toList =
      [[], "[artist]".toList, [], "[title]".toList] ∧
    parseFilename "ab".toList (tokenizePattern "[artist][title]".toList) = none := by
  decide

/-- Claim C3, counterexample: tokenizing `[title]` does not return the
single-token sequence consisting of the variable token `[title]`. -/
theorem claim3_counterexample :
    tokenizePattern "[title]".toList ≠ ["[title]".toList] := by
  decide

/-- Claim C3, amended: tokenizing `[title]` returns exactly two tokens,
an empty literal token (flushed by the opening bracket) followed by the
variable token `[title]`. -/
theorem claim3_two_tokens :
    tokenizePattern "[title]".toList = [[], "[title]".toList] ∧
    isVariable "[title]".toList = true ∧ isVariable [] = false := by
  decide

/-- Claim C4: for every pattern with balanced and non-nested brackets,
concatenating the texts of the tokens of `tokenizePattern pattern`, in
order, restores the pattern exactly. -/
theorem claim4_roundtrip (pattern : List Char)
    (h : balancedNonNested pattern = true) :
    (tokenizePattern pattern).flatten = pattern := by
  simpa [tokenizePattern] using tokenizeLoop_join pattern [] []

/-- Claim C4, witness at the pattern `[artist] - [title]`. -/
theorem claim4_roundtrip_witness :
    balancedNonNested "[artist] - [title]".toList = true ∧
    (tokenizePattern "[artist] - [title]".toList).flatten = "[artist] - [title]".toList :=
  ⟨by decide, claim4_roundtrip _ (by decide)⟩

/-- Claim C5: when the token loop reaches a literal token that does not
begin the remaining filename, it returns at once with `ok = false` and
the title, artist and tags exactly as earlier tokens left them. -/
theorem claim5_literal_mismatch_aborts
    (token : List Char) (rest : List (List Char))
    (filename title artist : List Char) (tags : List (List Char))
    (hv : isVariable token = false) (hp : hasPrefix filename token = false) :
    parseLoop (token :: rest) filename title artist tags =
      some (title, artist, tags, false) := by
  rw [parseLoop, if_neg (by simp [hv]), if_neg (by simp [hp])]

/-- Claim C5, witness: literal token `x` against remaining filename `y`
with partially-populated fields. -/
theorem claim5_literal_mismatch_witness :
    isVariable ['x'] = false ∧ hasPrefix ['y'] ['x'] = false ∧
    parseLoop [['x'], "[tag]".toList] ['y'] "T".toList "A".toList ["t1".toList] =
      some ("T".toList, "A".toList, ["t1".toList], false) :=
  ⟨by decide, by decide,
    claim5_literal_mismatch_aborts ['x'] ["[tag]".toList] ['y'] "T".toList "A".toList
      ["t1".toList] (by decide) (by decide)⟩

/-- Claim C6: each `[tag]` token appends its capture to the tags in
token order; matching `a-b-c` against the tokenized pattern
`[tag]-[tag]-[tag]` yields tags `["a","b","c"]` and `ok = true`. -/
theorem claim6_repeatable_tags :
    parseFilename "a-b-c".toList (tokenizePattern "[tag]-[tag]-[tag]".toList) =
      some ("Untitled".toList, "Unnamed".toList, [['a'], ['b'], ['c']], true) := by
  decide

/-- Claim C8: a variable token whose name is unrecognized consumes
characters like any variable but populates no field: matching `X`
against the tokenized pattern `[unknown]` returns the defaults
`Untitled` and `Unnamed`, empty tags, and `ok = true` — the capture is
discarded. -/
theorem claim8_unknown_variable_discarded :
    parseFilename "X".toList (tokenizePattern "[unknown]".toList) =
      some ("Untitled".toList, "Unnamed".toList, [], true) := by
  decide

/-- Claim C7, counterexample: the NUL character is the stop-byte
sentinel, so a final variable token does not consume a remaining
filename that starts with NUL: matching the one-character filename
`\x00` against the single variable token `[title]` captures the empty
string for the title, not the whole remaining filename. -/
theorem claim7_counterexample :
    consumeVar nulChar [Char.ofNat 0] ≠ ([Char.ofNat 0], []) ∧
    parseFilename [Char.ofNat 0] ["[title]".toList] =
      some ([], "Unnamed".toList, [], true) := by
  decide

/-- Claim C7, amended: for every remaining filename that contains no
NUL character, when the token loop reaches a final variable token its
stop byte is the zero sentinel (unset), the capture consumes the whole
remaining filename, leaving it empty, and the loop returns the capture
assigned through the variable with `ok = true`. -/
theorem claim7_last_variable_consumes_all
    (filename title artist : List Char) (tags : List (List Char)) (token : List Char)
    (hv : isVariable token = true) (hn : Char.ofNat 0 ∉ filename) :
    stopByte [] = some nulChar ∧
    consumeVar nulChar filename = (filename, []) ∧
    parseLoop [token] filename title artist tags =
      some ((assignVar token filename title artist tags).1,
            (assignVar token filename title artist tags).2.1,
            (assignVar token filename title artist tags).2.2, true) := by
  have hall : consumeVar nulChar filename = (filename, []) := consumeVar_all _ _ hn
  refine ⟨rfl, hall, ?_⟩
  rw [parseLoop, if_pos hv]
  show (match consumeVar nulChar filename with
    | (buffer, filename') =>
      match assignVar token buffer title artist tags with
      | (title', artist', tags') => parseLoop [] filename' title' artist' tags') = _
  rw [hall]
  rcases ha : assignVar token filename title artist tags with ⟨t₂, a₂, g₂⟩
  simp [parseLoop, ha]

/-- Claim C7, witness: the final variable token `[title]` consumes the
whole remaining filename `ab`. -/
theorem claim7_witness :
    isVariable "[title]".toList = true ∧ Char.ofNat 0 ∉ "ab".toList ∧
    parseLoop ["[title]".toList] "ab".toList "Untitled".toList "Unnamed".toList [] =
      some ((assignVar "[title]".toList "ab".toList "Untitled".toList "Unnamed".toList []).1,
            (assignVar "[title]".toList "ab".toList "Untitled".toList "Unnamed".toList []).2.1,
            (assignVar "[title]".toList "ab".toList "Untitled".toList "Unnamed".toList []).2.2,
            true) :=
  ⟨by decide, by decide,
    (claim7_last_variable_consumes_all "ab".toList "Untitled".toList "Unnamed".toList []
      "[title]".toList (by decide) (by decide)).2.2⟩

/-- Claim C9: the matcher is deterministic: any two runs of the token
loop from `parseFilename`'s start state (defaults `Untitled`, `Unnamed`
and no tags) over the same token list and filename return identical
results, so two successive calls with the same, unchanged token
sequence agree (`parseLoop_sound` places every normal return of the
function in the relation). -/
theorem claim9_deterministic
    (tokens : List (List Char)) (filename : List Char)
    (r₁ r₂ : List Char × List Char × List (List Char) × Bool)
    (h₁ : Matches tokens filename "Untitled".toList "Unnamed".toList [] r₁)
    (h₂ : Matches tokens filename "Untitled".toList "Unnamed".toList [] r₂) :
    r₁ = r₂ :=
  Matches_det tokens filename _ _ _ r₁ r₂ h₁ h₂

/-- Claim C9, witness: two runs over the literal token `x` and the
filename `x` both return the defaults with `ok = true`. -/
theorem claim9_witness :
    (("Untitled".toList, "Unnamed".toList, ([] : List (List Char)), true) :
        List Char × List Char × List (List Char) × Bool) =
      ("Untitled".toList, "Unnamed".toList, [], true) :=
  claim9_deterministic [['x']] ['x'] _ _
    (Matches.litOk (by decide) (by decide) Matches.done)
    (Matches.litOk (by decide) (by decide) Matches.done)

/-- Claim C10: for every filename, matching against the empty token
list returns the defaults unchanged and reports success. -/
theorem claim10_empty_tokens (filename : List Char) :
    parseFilename filename [] =
      some ("Untitled".toList, "Unnamed".toList, [], true) :=
  rfl

end TabServer
